import Mathlib

/-!
Shallow embedding of the snapshot-isolated Transaction layer
(`db/transaction.h`, `db/transaction.cc`) of the leveldb repository.

The underlying store is an external collaborator; it is modelled by the
two views the transaction code actually reads through it: the contents
of the store as of the transaction's snapshot, and the contents of the
store "now" (latest committed state).  A view is a finite association
list from keys to values; `DBView.get` is the store's point read.

Every function below is translated from the C++ source; field and
function names follow the source where Lean allows it.
-/

namespace LevelDBTxn

/-- Keys and values are byte strings; we model them as `String`. -/
abbrev Key := String

abbrev Value := String

/-- A point-in-time view of the store: key/value pairs, first match wins
(the store has at most one live entry per key). -/
abbrev DBView := List (Key × Value)

/-- Point read of a view: the value of `key`, or `none` when absent. -/
def DBView.get (view : DBView) (key : Key) : Option Value :=
  match view with
  | [] => none
  | (k, v) :: rest => if k = key then some v else DBView.get rest key

/-- Outcome statuses of the C++ `Status` class, restricted to the
constructors this code produces. -/
inductive Status where
  | ok : Status
  | notFound (msg : String) : Status
  | corruption (msg : String) (key : String) : Status
  | invalidArgument (msg : String) : Status
  | ioError (msg : String) : Status
deriving DecidableEq

/-- `Status::ok()` test. -/
def Status.isOk : Status → Bool
  | Status.ok => true
  | _ => false

/-- Is this status an `InvalidArgument` (the code's InvalidState condition)? -/
def Status.isInvalidArgument : Status → Bool
  | Status.invalidArgument _ => true
  | _ => false

/-- Is this status a `Corruption` (the code's read-write-conflict condition)? -/
def Status.isCorruption : Status → Bool
  | Status.corruption _ _ => true
  | _ => false

/-- Is this status a `NotFound`? -/
def Status.isNotFound : Status → Bool
  | Status.notFound _ => true
  | _ => false

/-- `DB::Get(options, key, value)`: returns `Status::OK()` and overwrites the
out-string with the stored value when the key is present, else returns
`NotFound` and leaves the out-string unchanged.  `value` is the contents of
the caller's out-string before the call. -/
def dbGet (view : DBView) (key : Key) (value : String) : Status × String :=
  match DBView.get view key with
  | some v => (Status.ok, v)
  | none => (Status.notFound "NotFound", value)

/-- `Transaction::BufferEntry` from `transaction.h`. -/
structure BufferEntry where
  value : String
  is_tombstone : Bool
deriving DecidableEq

/-- `BufferEntry(const std::string& v)`: a live value entry. -/
def BufferEntry.ofValue (v : String) : BufferEntry :=
  { value := v, is_tombstone := false }

/-- `BufferEntry::Tombstone()`. -/
def BufferEntry.Tombstone : BufferEntry :=
  { value := "", is_tombstone := true }

/-- `Transaction::TransactionState` from `transaction.h`. -/
inductive TransactionState where
  | ACTIVE : TransactionState
  | COMMITTED : TransactionState
  | ABORTED : TransactionState
deriving DecidableEq

/-- The write buffer: `std::unordered_map<std::string, BufferEntry>`,
modelled as an association list without duplicate keys. -/
abbrev WriteBuffer := List (Key × BufferEntry)

/-- `write_buffer_.find(key)` — lookup in the unordered map. -/
def WriteBuffer.find (m : WriteBuffer) (key : Key) : Option BufferEntry :=
  match m with
  | [] => none
  | (k, e) :: rest => if k = key then some e else WriteBuffer.find rest key

/-- `write_buffer_[key] = entry` — overwrite-or-insert in the unordered map. -/
def WriteBuffer.store (m : WriteBuffer) (key : Key) (entry : BufferEntry) :
    WriteBuffer :=
  match m with
  | [] => [(key, entry)]
  | (k, e) :: rest =>
      if k = key then (key, entry) :: rest
      else (k, e) :: WriteBuffer.store rest key entry

/-- One operation recorded in the `WriteBatch`. -/
inductive BatchOp where
  | put (key : Key) (value : Value) : BatchOp
  | del (key : Key) : BatchOp
deriving DecidableEq

/-- The `WriteBatch`: an ordered sequence of Put/Delete operations. -/
abbrev WriteBatch := List BatchOp

/-- The read set: `std::unordered_set<std::string>`, modelled as a
duplicate-free list; `insert` is a no-op on an element already present. -/
def ReadSet.insert (s : List Key) (key : Key) : List Key :=
  if key ∈ s then s else s ++ [key]

/-- The transaction object (`transaction.h`).  `db_present` models
`db_ != nullptr`; `snapshot_` is `none` for a null snapshot handle and
otherwise carries the view of the store frozen at acquisition time. -/
structure Transaction where
  db_present : Bool
  snapshot_ : Option DBView
  state_ : TransactionState
  read_set_ : List Key
  write_buffer_ : WriteBuffer
  write_batch_ : WriteBatch
deriving DecidableEq

/-- The store handle passed to the constructor: whether `GetSnapshot()`
succeeds, and the committed contents at construction time (which become
the snapshot view). -/
structure DB where
  snapshot_available : Bool
  contents : DBView
deriving DecidableEq

/-- `Transaction::Transaction(DB* db)`: null store or failed snapshot
acquisition leaves the transaction immediately ABORTED; otherwise it is
ACTIVE with the snapshot fixed at the store's current contents. -/
def Transaction.begin (db : Option DB) : Transaction :=
  match db with
  | none =>
      { db_present := false, snapshot_ := none,
        state_ := TransactionState.ABORTED,
        read_set_ := [], write_buffer_ := [], write_batch_ := [] }
  | some d =>
      if d.snapshot_available then
        { db_present := true, snapshot_ := some d.contents,
          state_ := TransactionState.ACTIVE,
          read_set_ := [], write_buffer_ := [], write_batch_ := [] }
      else
        { db_present := true, snapshot_ := none,
          state_ := TransactionState.ABORTED,
          read_set_ := [], write_buffer_ := [], write_batch_ := [] }

/-- `Transaction::CheckActive()`. -/
def Transaction.CheckActive (t : Transaction) : Status :=
  if t.state_ = TransactionState.ABORTED then
    Status.invalidArgument "Transaction has been aborted"
  else if t.state_ = TransactionState.COMMITTED then
    Status.invalidArgument "Transaction has been committed"
  else if t.db_present = false then
    Status.invalidArgument "Database is null"
  else if t.snapshot_ = none then
    Status.invalidArgument "Snapshot is null"
  else
    Status.ok

/-- `ValidateSnapshotIsolation(db, snapshot, key, value)` from
`transaction.cc`: reads the key at the snapshot and at the current state,
reports a Corruption conflict on existence mismatch or on differing
content, otherwise OK.  `value` is the caller's out-string; the returned
string is its contents after the call (the current read writes it). -/
def ValidateSnapshotIsolation (snap cur : DBView) (key : Key)
    (value : String) : Status × String :=
  let snapRead := dbGet snap key ""
  let snap_status := snapRead.1
  let value_at_snapshot := snapRead.2
  let curRead := dbGet cur key value
  let current_status := curRead.1
  let value1 := curRead.2
  let existed_at_snapshot := snap_status.isOk
  let exists_now := current_status.isOk
  if existed_at_snapshot ≠ exists_now then
    (Status.corruption
      "Read-write conflict: key modified by another transaction" key, value1)
  else if existed_at_snapshot && exists_now && value_at_snapshot ≠ value1 then
    (Status.corruption
      "Read-write conflict: key modified by another transaction" key, value1)
  else
    (Status.ok, value1)

/-- `Transaction::Abort()`. -/
def Transaction.Abort (t : Transaction) : Status × Transaction :=
  if t.state_ = TransactionState.COMMITTED then
    (Status.invalidArgument "Cannot rollback: transaction already committed", t)
  else if t.state_ = TransactionState.ABORTED then
    (Status.ok, t)
  else
    (Status.ok,
      { t with state_ := TransactionState.ABORTED,
               write_buffer_ := [], write_batch_ := [] })

/-- `Transaction::Get(options, key, value)`.  `cur` is the store's current
committed contents at call time; `value` the caller's out-string.  Returns
the status, the out-string after the call, and the transaction after the
call. -/
def Transaction.Get (t : Transaction) (cur : DBView) (key : Key)
    (value : String) : Status × String × Transaction :=
  let s := t.CheckActive
  if ¬ s.isOk then (s, value, t)
  else
    match WriteBuffer.find t.write_buffer_ key with
    | some entry =>
        if entry.is_tombstone then
          (Status.notFound "Key deleted in transaction", value, t)
        else
          (Status.ok, entry.value, t)
    | none =>
        let snap := t.snapshot_.getD []
        let vres := ValidateSnapshotIsolation snap cur key value
        let t1 := if ¬ vres.1.isOk then (Transaction.Abort t).2 else t
        (vres.1, vres.2,
          { t1 with read_set_ := ReadSet.insert t1.read_set_ key })

/-- `Transaction::Put(key, value)`. -/
def Transaction.Put (t : Transaction) (key : Key) (value : Value) :
    Status × Transaction :=
  let s := t.CheckActive
  if ¬ s.isOk then (s, t)
  else
    (Status.ok,
      { t with
          write_buffer_ :=
            WriteBuffer.store t.write_buffer_ key (BufferEntry.ofValue value),
          write_batch_ := t.write_batch_ ++ [BatchOp.put key value] })

/-- `Transaction::Delete(key)`. -/
def Transaction.Delete (t : Transaction) (key : Key) : Status × Transaction :=
  let s := t.CheckActive
  if ¬ s.isOk then (s, t)
  else
    (Status.ok,
      { t with
          write_buffer_ :=
            WriteBuffer.store t.write_buffer_ key BufferEntry.Tombstone,
          write_batch_ := t.write_batch_ ++ [BatchOp.del key] })

/-- The commit-time validation loops: run the validator over `keys` in
order with a fresh out-string each iteration, returning the first
non-OK status, or `none` when every key validates. -/
def validateKeys (snap cur : DBView) (keys : List Key) : Option Status :=
  match keys with
  | [] => none
  | k :: rest =>
      if ¬ (ValidateSnapshotIsolation snap cur k "").1.isOk then
        some (ValidateSnapshotIsolation snap cur k "").1
      else validateKeys snap cur rest

/-- Erase a key from a view (the effect of a batched Delete on the store). -/
def DBView.erase (view : DBView) (key : Key) : DBView :=
  match view with
  | [] => []
  | (k, v) :: rest =>
      if k = key then DBView.erase rest key
      else (k, v) :: DBView.erase rest key

/-- Overwrite-or-insert a key in a view (the effect of a batched Put). -/
def DBView.store (view : DBView) (key : Key) (value : Value) : DBView :=
  match view with
  | [] => [(key, value)]
  | (k, v) :: rest =>
      if k = key then (key, value) :: rest
      else (k, v) :: DBView.store rest key value

/-- `DB::Write(options, batch)`: apply the batch's operations in order. -/
def DBView.applyBatch (view : DBView) (batch : WriteBatch) : DBView :=
  match batch with
  | [] => view
  | BatchOp.put k v :: rest => DBView.applyBatch (DBView.store view k v) rest
  | BatchOp.del k :: rest => DBView.applyBatch (DBView.erase view k) rest

/-- `Transaction::Commit()`.  `cur` is the store's current committed
contents at call time; `write_ok` models whether the store's batch apply
(`db_->Write`) succeeds.  Returns the status, the transaction after the
call, and the store contents after the call. -/
def Transaction.Commit (t : Transaction) (cur : DBView) (write_ok : Bool) :
    Status × Transaction × DBView :=
  let s := t.CheckActive
  if ¬ s.isOk then (s, t, cur)
  else if t.write_buffer_ = [] then
    (Status.ok, { t with state_ := TransactionState.COMMITTED }, cur)
  else
    let snap := t.snapshot_.getD []
    match validateKeys snap cur t.read_set_ with
    | some err => (err, t, cur)
    | none =>
        match validateKeys snap cur (t.write_buffer_.map Prod.fst) with
        | some err => (err, t, cur)
        | none =>
            if write_ok then
              (Status.ok,
                { t with state_ := TransactionState.COMMITTED,
                         write_buffer_ := [], write_batch_ := [] },
                DBView.applyBatch cur t.write_batch_)
            else
              (Status.ioError "write failed",
                (Transaction.Abort t).2, cur)

/-! ### Helper lemmas -/

theorem Status.isOk_iff (s : Status) : s.isOk = true ↔ s = Status.ok := by
  cases s <;> simp [Status.isOk]

theorem CheckActive_ok_state (t : Transaction)
    (h : t.CheckActive = Status.ok) : t.state_ = TransactionState.ACTIVE := by
  unfold Transaction.CheckActive at h
  split at h
  · exact absurd h (by simp)
  · split at h
    · exact absurd h (by simp)
    · cases hs : t.state_ <;> simp_all

theorem CheckActive_ok_db (t : Transaction)
    (h : t.CheckActive = Status.ok) : t.db_present = true := by
  unfold Transaction.CheckActive at h
  split at h
  · exact absurd h (by simp)
  · split at h
    · exact absurd h (by simp)
    · split at h
      · exact absurd h (by simp)
      · simp_all

theorem CheckActive_ok_snapshot (t : Transaction)
    (h : t.CheckActive = Status.ok) : t.snapshot_ ≠ none := by
  unfold Transaction.CheckActive at h
  split at h
  · exact absurd h (by simp)
  · split at h
    · exact absurd h (by simp)
    · split at h
      · exact absurd h (by simp)
      · split at h
        · exact absurd h (by simp)
        · assumption

theorem WriteBuffer.find_store_self (m : WriteBuffer) (k : Key)
    (e : BufferEntry) : WriteBuffer.find (WriteBuffer.store m k e) k = some e := by
  induction m with
  | nil => simp [WriteBuffer.store, WriteBuffer.find]
  | cons p rest ih =>
      by_cases h : p.1 = k
      · simp [WriteBuffer.store, WriteBuffer.find, h]
      · simp [WriteBuffer.store, WriteBuffer.find, h, ih]

theorem WriteBuffer.find_store_other (m : WriteBuffer) (k k1 : Key)
    (e : BufferEntry) (h : k ≠ k1) :
    WriteBuffer.find (WriteBuffer.store m k e) k1 = WriteBuffer.find m k1 := by
  induction m with
  | nil => simp [WriteBuffer.store, WriteBuffer.find, h]
  | cons p rest ih =>
      by_cases hp : p.1 = k
      · simp [WriteBuffer.store, WriteBuffer.find, hp, h]
      · simp [WriteBuffer.store, WriteBuffer.find, hp, ih]

theorem WriteBuffer.find_some_mem (m : WriteBuffer) (k : Key) (e : BufferEntry)
    (h : WriteBuffer.find m k = some e) : k ∈ m.map Prod.fst := by
  induction m with
  | nil => simp [WriteBuffer.find] at h
  | cons p rest ih =>
      by_cases hp : p.1 = k
      · simp [hp]
      · simp [WriteBuffer.find, hp] at h
        simp [ih h]

/-- The validator's status is either OK or a conflict (Corruption). -/
theorem validator_status (snap cur : DBView) (k : Key) (v : String) :
    (ValidateSnapshotIsolation snap cur k v).1 = Status.ok ∨
      (ValidateSnapshotIsolation snap cur k v).1.isCorruption = true := by
  unfold ValidateSnapshotIsolation
  dsimp only
  split
  · right; rfl
  · split
    · right; rfl
    · left; rfl

theorem Status.isCorruption_not_ok (s : Status) (h : s.isCorruption = true) :
    s.isOk = false := by
  cases s <;> simp_all [Status.isOk, Status.isCorruption]

theorem Status.isInvalidArgument_not_ok (s : Status)
    (h : s.isInvalidArgument = true) : s.isOk = false := by
  cases s <;> simp_all [Status.isOk, Status.isInvalidArgument]

theorem validateKeys_some_isCorruption (snap cur : DBView) (keys : List Key)
    (e : Status) (h : validateKeys snap cur keys = some e) :
    e.isCorruption = true := by
  induction keys with
  | nil => simp [validateKeys] at h
  | cons k rest ih =>
      rcases validator_status snap cur k "" with hok | hc
      · rw [validateKeys, hok] at h
        simp [Status.isOk] at h
        exact ih h
      · rw [validateKeys] at h
        rw [Status.isCorruption_not_ok _ hc] at h
        simp at h
        rw [← h]
        exact hc

theorem validateKeys_append (snap cur : DBView) (a b : List Key) :
    validateKeys snap cur (a ++ b) =
      match validateKeys snap cur a with
      | some e => some e
      | none => validateKeys snap cur b := by
  induction a with
  | nil => simp [validateKeys]
  | cons k rest ih =>
      by_cases hv : (ValidateSnapshotIsolation snap cur k "").1.isOk = true
      · simp only [List.cons_append, validateKeys, hv]
        simpa using ih
      · simp only [List.cons_append, validateKeys, hv]
        simp

theorem validateKeys_none_mem (snap cur : DBView) (keys : List Key) (k : Key)
    (h : validateKeys snap cur keys = none) (hm : k ∈ keys) :
    (ValidateSnapshotIsolation snap cur k "").1 = Status.ok := by
  induction keys with
  | nil => simp at hm
  | cons k1 rest ih =>
      by_cases hv : (ValidateSnapshotIsolation snap cur k1 "").1.isOk = true
      · rw [validateKeys, hv] at h
        simp at h
        rcases List.mem_cons.mp hm with hk | hk
        · subst hk
          exact (Status.isOk_iff _).mp hv
        · exact ih h hk
      · rw [validateKeys] at h
        simp [hv] at h

/-! ### Claim theorems -/

/-- C1: `ValidateSnapshotIsolation` reports a conflict if and only if the
key's existence differs between the snapshot view and the current view, or
the key exists in both views with differing byte content; in every other
case it reports no conflict, and whenever the key exists now the returned
out-string holds the current value. -/
theorem C1_validator_conflict_iff (snap cur : DBView) (key : Key)
    (init : String) :
    (¬ (ValidateSnapshotIsolation snap cur key init).1.isOk = true ↔
      ((DBView.get snap key).isSome ≠ (DBView.get cur key).isSome
        ∨ ∃ vs vc, DBView.get snap key = some vs
            ∧ DBView.get cur key = some vc ∧ vs ≠ vc))
    ∧ ((ValidateSnapshotIsolation snap cur key init).1.isOk = true →
        ∀ vc, DBView.get cur key = some vc →
          (ValidateSnapshotIsolation snap cur key init).2 = vc) := by
  cases h1 : DBView.get snap key <;> cases h2 : DBView.get cur key <;>
    simp_all [ValidateSnapshotIsolation, dbGet, Status.isOk]
  rename_i vs vc
  by_cases hv : vs = vc <;> simp [hv, Status.isOk]

/-- Witness for C1 at concrete inputs: equal content on both sides is no
conflict and yields the current value; and a content mismatch is a
conflict. -/
theorem C1_validator_witness :
    (ValidateSnapshotIsolation [("k", "a")] [("k", "a")] "k" "z").2 = "a" :=
  (C1_validator_conflict_iff [("k", "a")] [("k", "a")] "k" "z").2
    (by decide) "a" (by decide)

/-- C2 (code bug): a key with no write-buffer entry that is absent both at
the snapshot and from the current store makes `Get` return `Status.ok`
(the validator's no-conflict status), not a NotFound condition as the spec
requires; the caller's out-string is left untouched. -/
theorem C2_absent_key_get_returns_ok :
    WriteBuffer.find (Transaction.begin (some ⟨true, []⟩)).write_buffer_ "k"
        = none
    ∧ DBView.get ((Transaction.begin (some ⟨true, []⟩)).snapshot_.getD []) "k"
        = none
    ∧ DBView.get ([] : DBView) "k" = none
    ∧ ((Transaction.begin (some ⟨true, []⟩)).Get [] "k" "init").1 = Status.ok
    ∧ ((Transaction.begin (some ⟨true, []⟩)).Get [] "k" "init").1.isNotFound
        = false
    ∧ ((Transaction.begin (some ⟨true, []⟩)).Get [] "k" "init").2.1
        = "init" := by
  decide

/-- C3 (code bug): a `Get` whose inline validation reports a conflict
still inserts the key into the read set, after the transaction has already
transitioned to ABORTED — the key is added while the state is not ACTIVE,
contrary to the claim. -/
theorem C3_conflicting_get_still_inserts_key :
    ((Transaction.begin (some ⟨true, []⟩)).Get [("k", "1")] "k" "").1.isCorruption
        = true
    ∧ ((Transaction.begin (some ⟨true, []⟩)).Get [("k", "1")] "k" "").2.2.state_
        = TransactionState.ABORTED
    ∧ ((Transaction.begin (some ⟨true, []⟩)).Get [("k", "1")] "k" "").2.2.read_set_
        = ["k"]
    ∧ (Transaction.begin (some ⟨true, []⟩)).read_set_ = [] := by
  decide

/-- C4: on an ACTIVE transaction with a non-empty write buffer, if
commit-time re-validation of the read-set keys followed by the
write-buffer keys detects a conflict, `Commit` returns a conflict
(Corruption) error, the transaction is returned unchanged and still
ACTIVE, and the store is untouched. -/
theorem C4_commit_conflict_frame (t : Transaction) (cur : DBView)
    (wok : Bool) (hact : t.CheckActive = Status.ok)
    (hne : t.write_buffer_ ≠ [])
    (hconf : validateKeys (t.snapshot_.getD []) cur
        (t.read_set_ ++ t.write_buffer_.map Prod.fst) ≠ none) :
    (t.Commit cur wok).1.isCorruption = true
      ∧ (t.Commit cur wok).2.1 = t
      ∧ (t.Commit cur wok).2.2 = cur
      ∧ (t.Commit cur wok).2.1.state_ = TransactionState.ACTIVE := by
  have hstate := CheckActive_ok_state t hact
  rw [validateKeys_append] at hconf
  unfold Transaction.Commit
  rw [hact]
  simp only [Status.isOk, Bool.not_true, if_false, hne, ite_false]
  cases h1 : validateKeys (t.snapshot_.getD []) cur t.read_set_ with
  | some e =>
      simp only [h1]
      exact ⟨validateKeys_some_isCorruption _ _ _ _ h1, rfl, rfl, hstate⟩
  | none =>
      rw [h1] at hconf
      cases h2 : validateKeys (t.snapshot_.getD []) cur
          (t.write_buffer_.map Prod.fst) with
      | some e =>
          simp only [h1, h2]
          exact ⟨validateKeys_some_isCorruption _ _ _ _ h2, rfl, rfl, hstate⟩
      | none => exact absurd h2 (by simpa using hconf)

/-- Witness for C4: a transaction whose snapshot saw the store empty
buffered `Put("a","2")`; the store now holds `a="1"`; `Commit` returns a
conflict and leaves the transaction ACTIVE and unchanged. -/
theorem C4_commit_conflict_frame_witness :
    ((((Transaction.begin (some ⟨true, []⟩)).Put "a" "2").2).Commit
          [("a", "1")] true).1.isCorruption = true
      ∧ ((((Transaction.begin (some ⟨true, []⟩)).Put "a" "2").2).Commit
          [("a", "1")] true).2.1 = ((Transaction.begin (some ⟨true, []⟩)).Put "a" "2").2
      ∧ ((((Transaction.begin (some ⟨true, []⟩)).Put "a" "2").2).Commit
          [("a", "1")] true).2.2 = [("a", "1")]
      ∧ ((((Transaction.begin (some ⟨true, []⟩)).Put "a" "2").2).Commit
          [("a", "1")] true).2.1.state_ = TransactionState.ACTIVE :=
  C4_commit_conflict_frame ((Transaction.begin (some ⟨true, []⟩)).Put "a" "2").2
    [("a", "1")] true (by decide) (by decide) (by decide)

/-- C5: on an ACTIVE transaction with an empty write buffer, `Commit`
returns OK and only transitions the state to COMMITTED, for every current
store contents — in particular without re-validating any read-set key. -/
theorem C5_readonly_commit (t : Transaction) (cur : DBView) (wok : Bool)
    (hact : t.CheckActive = Status.ok) (hemp : t.write_buffer_ = []) :
    t.Commit cur wok =
      (Status.ok, { t with state_ := TransactionState.COMMITTED }, cur) := by
  unfold Transaction.Commit
  rw [hact]
  simp [Status.isOk, hemp]

/-- Witness for C5: a transaction that read `k` (value "1" at snapshot)
into its read set commits OK even though the store now holds `k="2"` — a
state on which the validator would report a conflict. -/
theorem C5_readonly_commit_witness :
    (((Transaction.begin (some ⟨true, [("k", "1")]⟩)).Get [("k", "1")] "k"
        "").2.2).read_set_ = ["k"]
      ∧ validateKeys [("k", "1")] [("k", "2")] ["k"] ≠ none
      ∧ (((Transaction.begin (some ⟨true, [("k", "1")]⟩)).Get [("k", "1")] "k"
            "").2.2).Commit [("k", "2")] true =
          (Status.ok,
            { ((Transaction.begin (some ⟨true, [("k", "1")]⟩)).Get
                [("k", "1")] "k" "").2.2 with
                state_ := TransactionState.COMMITTED },
            [("k", "2")]) :=
  ⟨by decide, by decide,
    C5_readonly_commit _ [("k", "2")] true (by decide) (by decide)⟩

/-- A transaction that is ABORTED or COMMITTED, or lacks a store or
snapshot handle, fails `CheckActive` with an InvalidArgument (InvalidState)
condition. -/
theorem CheckActive_fail (t : Transaction)
    (h : t.state_ = TransactionState.ABORTED
      ∨ t.state_ = TransactionState.COMMITTED
      ∨ t.db_present = false ∨ t.snapshot_ = none) :
    t.CheckActive.isInvalidArgument = true := by
  unfold Transaction.CheckActive
  split
  · rfl
  · split
    · rfl
    · split
      · rfl
      · split
        · rfl
        · rcases h with h | h | h | h <;> simp_all

/-- C8: `Abort` on an ABORTED transaction returns OK and changes nothing;
on a COMMITTED transaction it fails with an InvalidArgument (InvalidState)
condition and changes nothing; on any other transaction it clears the
write buffer and write batch, transitions to ABORTED, and returns OK. -/
theorem C8_abort_semantics (t : Transaction) :
    (t.state_ = TransactionState.ABORTED → t.Abort = (Status.ok, t))
    ∧ (t.state_ = TransactionState.COMMITTED →
        (t.Abort).1.isInvalidArgument = true ∧ (t.Abort).2 = t)
    ∧ (t.state_ ≠ TransactionState.ABORTED →
        t.state_ ≠ TransactionState.COMMITTED →
        t.Abort = (Status.ok,
          { t with state_ := TransactionState.ABORTED,
                   write_buffer_ := [], write_batch_ := [] })) := by
  refine ⟨fun h => ?_, fun h => ?_, fun h1 h2 => ?_⟩
  · simp [Transaction.Abort, h]
  · simp [Transaction.Abort, h, Status.isInvalidArgument]
  · simp [Transaction.Abort, h1, h2]

/-- Witness for C8 on three concrete transactions: one aborted at
construction, one committed, one active with a buffered write. -/
theorem C8_abort_semantics_witness :
    (Transaction.begin none).Abort = (Status.ok, Transaction.begin none)
    ∧ ((((Transaction.begin (some ⟨true, []⟩)).Commit [] true).2.1).Abort).1.isInvalidArgument
        = true
    ∧ (((Transaction.begin (some ⟨true, []⟩)).Put "a" "1").2).Abort =
        (Status.ok,
          { ((Transaction.begin (some ⟨true, []⟩)).Put "a" "1").2 with
              state_ := TransactionState.ABORTED,
              write_buffer_ := [], write_batch_ := [] }) :=
  ⟨(C8_abort_semantics (Transaction.begin none)).1 (by decide),
    ((C8_abort_semantics (((Transaction.begin (some ⟨true, []⟩)).Commit []
        true).2.1)).2.1 (by decide)).1,
    (C8_abort_semantics (((Transaction.begin (some ⟨true, []⟩)).Put "a"
        "1").2)).2.2 (by decide) (by decide)⟩

/-- C9: construction with a null store, or with failed snapshot
acquisition, yields an immediately-ABORTED transaction; and on any
transaction that is ABORTED, COMMITTED, or lacks a store or snapshot
handle, `Get`, `Put`, `Delete` and `Commit` all fail with an
InvalidArgument (InvalidState) condition, leave the transaction and the
caller's out-string unchanged, and never read or write the store. -/
theorem C9_construction_and_terminal_guard (d : DB) (t : Transaction)
    (cur cur2 : DBView) (k v init : String) (wok : Bool) :
    (Transaction.begin none).state_ = TransactionState.ABORTED
    ∧ (d.snapshot_available = false →
        (Transaction.begin (some d)).state_ = TransactionState.ABORTED)
    ∧ ((t.state_ = TransactionState.ABORTED
          ∨ t.state_ = TransactionState.COMMITTED
          ∨ t.db_present = false ∨ t.snapshot_ = none) →
        (t.Get cur k init).1.isInvalidArgument = true
        ∧ (t.Get cur k init).2.1 = init
        ∧ (t.Get cur k init).2.2 = t
        ∧ t.Get cur k init = t.Get cur2 k init
        ∧ (t.Put k v).1.isInvalidArgument = true
        ∧ (t.Put k v).2 = t
        ∧ (t.Delete k).1.isInvalidArgument = true
        ∧ (t.Delete k).2 = t
        ∧ (t.Commit cur wok).1.isInvalidArgument = true
        ∧ (t.Commit cur wok).2.1 = t
        ∧ (t.Commit cur wok).2.2 = cur) := by
  refine ⟨by simp [Transaction.begin], fun h => by simp [Transaction.begin, h],
    fun h => ?_⟩
  have hca := CheckActive_fail t h
  have hok : t.CheckActive.isOk = false := Status.isInvalidArgument_not_ok _ hca
  unfold Transaction.Get Transaction.Put Transaction.Delete Transaction.Commit
  simp [hok, hca]

/-- Witness for C9 on the transaction built from a null store. -/
theorem C9_construction_and_terminal_guard_witness :
    (Transaction.begin none).state_ = TransactionState.ABORTED
    ∧ ((Transaction.begin none).Get [("k", "1")] "k" "init").1.isInvalidArgument
        = true
    ∧ ((Transaction.begin none).Get [("k", "1")] "k" "init").2.1 = "init"
    ∧ ((Transaction.begin none).Put "k" "v").2 = Transaction.begin none
    ∧ ((Transaction.begin none).Commit [("k", "1")] true).2.2 = [("k", "1")] :=
  ⟨(C9_construction_and_terminal_guard ⟨false, []⟩ (Transaction.begin none)
      [("k", "1")] [] "k" "v" "init" true).1,
    ((C9_construction_and_terminal_guard ⟨false, []⟩ (Transaction.begin none)
      [("k", "1")] [] "k" "v" "init" true).2.2 (by decide)).1,
    ((C9_construction_and_terminal_guard ⟨false, []⟩ (Transaction.begin none)
      [("k", "1")] [] "k" "v" "init" true).2.2 (by decide)).2.1,
    ((C9_construction_and_terminal_guard ⟨false, []⟩ (Transaction.begin none)
      [("k", "1")] [] "k" "v" "init" true).2.2 (by decide)).2.2.2.2.2.1,
    ((C9_construction_and_terminal_guard ⟨false, []⟩ (Transaction.begin none)
      [("k", "1")] [] "k" "v" "init" true).2.2 (by decide)).2.2.2.2.2.2.2.2.2.2⟩

/-! ### Sequences of buffered writes (for the read-your-own-write claim) -/

/-- A buffered mutation: a `Put` or a `Delete` call. -/
inductive WriteOp where
  | wput (key : Key) (value : Value) : WriteOp
  | wdel (key : Key) : WriteOp
deriving DecidableEq

/-- The key a buffered mutation touches. -/
def WriteOp.key : WriteOp → Key
  | WriteOp.wput k _ => k
  | WriteOp.wdel k => k

/-- The buffer entry a buffered mutation stores. -/
def WriteOp.entry : WriteOp → BufferEntry
  | WriteOp.wput _ v => BufferEntry.ofValue v
  | WriteOp.wdel _ => BufferEntry.Tombstone

/-- Perform one `Put`/`Delete` call on the transaction. -/
def applyWrite (t : Transaction) : WriteOp → Transaction
  | WriteOp.wput k v => (t.Put k v).2
  | WriteOp.wdel k => (t.Delete k).2

/-- Perform a sequence of `Put`/`Delete` calls in order. -/
def applyWrites (t : Transaction) (ws : List WriteOp) : Transaction :=
  match ws with
  | [] => t
  | w :: rest => applyWrites (applyWrite t w) rest

/-- The last mutation of `k` in the sequence, if any. -/
def lastWrite (ws : List WriteOp) (k : Key) : Option WriteOp :=
  match ws with
  | [] => none
  | w :: rest =>
      match lastWrite rest k with
      | some w1 => some w1
      | none => if w.key = k then some w else none

theorem applyWrite_CheckActive (t : Transaction) (w : WriteOp) :
    (applyWrite t w).CheckActive = t.CheckActive := by
  cases w <;> unfold applyWrite Transaction.Put Transaction.Delete <;>
    dsimp only <;> split <;> simp [Transaction.CheckActive]

theorem applyWrites_CheckActive (t : Transaction) (ws : List WriteOp) :
    (applyWrites t ws).CheckActive = t.CheckActive := by
  induction ws generalizing t with
  | nil => rfl
  | cons w rest ih => rw [applyWrites, ih, applyWrite_CheckActive]

theorem find_applyWrite (t : Transaction) (w : WriteOp) (k : Key)
    (hact : t.CheckActive = Status.ok) :
    WriteBuffer.find (applyWrite t w).write_buffer_ k =
      if w.key = k then some w.entry
      else WriteBuffer.find t.write_buffer_ k := by
  cases w with
  | wput k1 v =>
      unfold applyWrite Transaction.Put
      rw [hact]
      by_cases hk : k1 = k
      · simp [Status.isOk, WriteOp.key, WriteOp.entry, hk,
          WriteBuffer.find_store_self]
      · simp [Status.isOk, WriteOp.key, WriteOp.entry, hk,
          WriteBuffer.find_store_other _ _ _ _ hk]
  | wdel k1 =>
      unfold applyWrite Transaction.Delete
      rw [hact]
      by_cases hk : k1 = k
      · simp [Status.isOk, WriteOp.key, WriteOp.entry, hk,
          WriteBuffer.find_store_self]
      · simp [Status.isOk, WriteOp.key, WriteOp.entry, hk,
          WriteBuffer.find_store_other _ _ _ _ hk]

theorem find_applyWrites (t : Transaction) (ws : List WriteOp) (k : Key)
    (hact : t.CheckActive = Status.ok) :
    WriteBuffer.find (applyWrites t ws).write_buffer_ k =
      match lastWrite ws k with
      | some w => some w.entry
      | none => WriteBuffer.find t.write_buffer_ k := by
  induction ws generalizing t with
  | nil => rfl
  | cons w rest ih =>
      rw [applyWrites, ih (applyWrite t w)
        (by rw [applyWrite_CheckActive]; exact hact)]
      cases hl : lastWrite rest k with
      | some w1 => simp [lastWrite, hl]
      | none =>
          rw [find_applyWrite t w k hact]
          by_cases hk : w.key = k <;> simp [lastWrite, hl, hk]

/-- C6: on an ACTIVE transaction, after any sequence of `Put`/`Delete`
calls, `Get(k)` reflects the latest buffered mutation of `k`: if the last
mutation of `k` was `Put(k, v)` then `Get` returns OK with value `v`; if
it was `Delete(k)` then `Get` returns NotFound — regardless of the store's
current contents.  The claim's four scenarios are instances. -/
theorem C6_read_your_writes (t : Transaction) (ws : List WriteOp)
    (cur : DBView) (k : Key) (v init : String)
    (hact : t.CheckActive = Status.ok) :
    (lastWrite ws k = some (WriteOp.wput k v) →
        ((applyWrites t ws).Get cur k init).1 = Status.ok
        ∧ ((applyWrites t ws).Get cur k init).2.1 = v)
    ∧ (lastWrite ws k = some (WriteOp.wdel k) →
        ((applyWrites t ws).Get cur k init).1
          = Status.notFound "Key deleted in transaction") := by
  have hact2 : (applyWrites t ws).CheckActive = Status.ok := by
    rw [applyWrites_CheckActive]; exact hact
  have hfind := find_applyWrites t ws k hact
  constructor
  · intro h
    rw [h] at hfind
    unfold Transaction.Get
    rw [hact2]
    simp [Status.isOk, hfind, WriteOp.entry, BufferEntry.ofValue]
  · intro h
    rw [h] at hfind
    unfold Transaction.Get
    rw [hact2]
    simp [Status.isOk, hfind, WriteOp.entry, BufferEntry.Tombstone]

/-- Witness for C6: with `k` present in the store, `Put(k,"a")` then
`Delete(k)` makes `Get(k)` NotFound, and `Delete(k)` then `Put(k,"a")`
makes `Get(k)` return `"a"`. -/
theorem C6_read_your_writes_witness :
    ((applyWrites (Transaction.begin (some ⟨true, [("k", "s")]⟩))
          [WriteOp.wput "k" "a", WriteOp.wdel "k"]).Get [("k", "s")] "k"
        "").1 = Status.notFound "Key deleted in transaction"
    ∧ ((applyWrites (Transaction.begin (some ⟨true, [("k", "s")]⟩))
          [WriteOp.wdel "k", WriteOp.wput "k" "a"]).Get [("k", "s")] "k"
        "").2.1 = "a" :=
  ⟨(C6_read_your_writes (Transaction.begin (some ⟨true, [("k", "s")]⟩))
      [WriteOp.wput "k" "a", WriteOp.wdel "k"] [("k", "s")] "k" "a" ""
      (by decide)).2 (by decide),
    ((C6_read_your_writes (Transaction.begin (some ⟨true, [("k", "s")]⟩))
      [WriteOp.wdel "k", WriteOp.wput "k" "a"] [("k", "s")] "k" "a" ""
      (by decide)).1 (by decide)).2⟩

/-! ### Full operation sequences and the buffer/batch lockstep invariant -/

/-- One public operation on a transaction, with the store contents (and
the batch-apply outcome) observed at call time. -/
inductive Op where
  | get (cur : DBView) (key : Key) : Op
  | put (key : Key) (value : Value) : Op
  | del (key : Key) : Op
  | commit (cur : DBView) (write_ok : Bool) : Op
  | abort : Op

/-- The transaction after one operation. -/
def Transaction.step (t : Transaction) : Op → Transaction
  | Op.get cur key => (t.Get cur key "").2.2
  | Op.put k v => (t.Put k v).2
  | Op.del k => (t.Delete k).2
  | Op.commit cur wok => (t.Commit cur wok).2.1
  | Op.abort => (t.Abort).2

/-- The transaction after a sequence of operations. -/
def Transaction.run (t : Transaction) (ops : List Op) : Transaction :=
  match ops with
  | [] => t
  | op :: rest => Transaction.run (t.step op) rest

/-- Replay the batch's ordered operations into a buffer: a Put stores a
value entry, a Delete stores a tombstone entry. -/
def replayInto (m : WriteBuffer) (batch : WriteBatch) : WriteBuffer :=
  match batch with
  | [] => m
  | BatchOp.put k v :: rest =>
      replayInto (WriteBuffer.store m k (BufferEntry.ofValue v)) rest
  | BatchOp.del k :: rest =>
      replayInto (WriteBuffer.store m k BufferEntry.Tombstone) rest

/-- Replay the batch from an empty buffer. -/
def replayBatch (batch : WriteBatch) : WriteBuffer :=
  replayInto [] batch

theorem replayInto_append (m : WriteBuffer) (b1 b2 : WriteBatch) :
    replayInto m (b1 ++ b2) = replayInto (replayInto m b1) b2 := by
  induction b1 generalizing m with
  | nil => rfl
  | cons op rest ih => cases op <;> simp [replayInto, ih]

theorem abort_clears (t : Transaction)
    (h : t.state_ = TransactionState.ACTIVE) :
    (t.Abort).2.write_buffer_ = [] ∧ (t.Abort).2.write_batch_ = [] := by
  simp [Transaction.Abort, h]

/-- The lockstep invariant is preserved by every single operation. -/
theorem lockstep_step (t : Transaction) (op : Op)
    (h : replayBatch t.write_batch_ = t.write_buffer_) :
    replayBatch (t.step op).write_batch_ = (t.step op).write_buffer_ := by
  cases op with
  | get cur key =>
      unfold Transaction.step Transaction.Get
      dsimp only
      split
      · exact h
      · cases hf : WriteBuffer.find t.write_buffer_ key with
        | some entry => simp only [hf]; split <;> exact h
        | none =>
            simp only [hf]
            rename_i hok
            have hstate : t.state_ = TransactionState.ACTIVE :=
              CheckActive_ok_state t
                ((Status.isOk_iff _).mp (by simpa using hok))
            split
            · have hc := abort_clears t hstate
              simp [hc.1, hc.2, replayBatch, replayInto]
            · exact h
  | put k v =>
      unfold Transaction.step Transaction.Put
      dsimp only
      split
      · exact h
      · simp only [replayBatch, replayInto_append, replayInto]
        rw [← replayBatch, h]
  | del k =>
      unfold Transaction.step Transaction.Delete
      dsimp only
      split
      · exact h
      · simp only [replayBatch, replayInto_append, replayInto]
        rw [← replayBatch, h]
  | commit cur wok =>
      unfold Transaction.step Transaction.Commit
      dsimp only
      split
      · exact h
      · rename_i hok
        have hstate : t.state_ = TransactionState.ACTIVE :=
          CheckActive_ok_state t ((Status.isOk_iff _).mp (by simpa using hok))
        split
        · exact h
        · cases h1 : validateKeys (t.snapshot_.getD []) cur t.read_set_ with
          | some e => simp only [h1]; exact h
          | none =>
              simp only [h1]
              cases h2 : validateKeys (t.snapshot_.getD []) cur
                  (t.write_buffer_.map Prod.fst) with
              | some e => simp only [h2]; exact h
              | none =>
                  simp only [h2]
                  split
                  · simp [replayBatch, replayInto]
                  · have hc := abort_clears t hstate
                    simp [hc.1, hc.2, replayBatch, replayInto]
  | abort =>
      unfold Transaction.step Transaction.Abort
      dsimp only
      split
      · exact h
      · split
        · exact h
        · simp [replayBatch, replayInto]

theorem lockstep_run (t : Transaction) (ops : List Op)
    (h : replayBatch t.write_batch_ = t.write_buffer_) :
    replayBatch (Transaction.run t ops).write_batch_
      = (Transaction.run t ops).write_buffer_ := by
  induction ops generalizing t with
  | nil => exact h
  | cons op rest ih => exact ih (t.step op) (lockstep_step t op h)

/-- C7: after every sequence of operations starting from a freshly
constructed transaction, replaying the write batch's ordered Put/Delete
operations from an empty map reproduces exactly the write buffer (a
Delete leaves a tombstone entry, not a removal); and on an active
transaction each `Put`/`Delete` mutates the buffer and appends exactly
one matching operation to the batch. -/
theorem C7_lockstep (db : Option DB) (ops : List Op) (t1 : Transaction)
    (k : Key) (v : Value) :
    replayBatch (Transaction.run (Transaction.begin db) ops).write_batch_
      = (Transaction.run (Transaction.begin db) ops).write_buffer_
    ∧ (t1.CheckActive = Status.ok →
        (t1.Put k v).2.write_batch_ = t1.write_batch_ ++ [BatchOp.put k v]
        ∧ (t1.Put k v).2.write_buffer_
            = WriteBuffer.store t1.write_buffer_ k (BufferEntry.ofValue v)
        ∧ (t1.Delete k).2.write_batch_ = t1.write_batch_ ++ [BatchOp.del k]
        ∧ (t1.Delete k).2.write_buffer_
            = WriteBuffer.store t1.write_buffer_ k BufferEntry.Tombstone) := by
  constructor
  · apply lockstep_run
    cases db with
    | none => rfl
    | some d =>
        by_cases hs : d.snapshot_available = true <;>
          simp [Transaction.begin, hs, replayBatch, replayInto]
  · intro hact
    unfold Transaction.Put Transaction.Delete
    rw [hact]
    simp [Status.isOk]

/-- Witness for C7: a put, a delete on another key, and a read; replay of
the resulting batch equals the resulting buffer, and one more `Put`
appends exactly one batch entry. -/
theorem C7_lockstep_witness :
    replayBatch (Transaction.run (Transaction.begin (some ⟨true, []⟩))
        [Op.put "a" "1", Op.del "b", Op.get [] "c"]).write_batch_
      = (Transaction.run (Transaction.begin (some ⟨true, []⟩))
        [Op.put "a" "1", Op.del "b", Op.get [] "c"]).write_buffer_
    ∧ (((Transaction.begin (some ⟨true, []⟩)).Put "b" "2").2.write_batch_
        = (Transaction.begin (some ⟨true, []⟩)).write_batch_
            ++ [BatchOp.put "b" "2"]) :=
  ⟨(C7_lockstep (some ⟨true, []⟩) [Op.put "a" "1", Op.del "b", Op.get [] "c"]
      (Transaction.begin (some ⟨true, []⟩)) "b" "2").1,
    ((C7_lockstep (some ⟨true, []⟩) [Op.put "a" "1", Op.del "b", Op.get [] "c"]
      (Transaction.begin (some ⟨true, []⟩)) "b" "2").2 (by decide)).1⟩

/-- C10: on an ACTIVE transaction, a `Get` for a key with a write-buffer
entry is served entirely from the buffer: the transaction (in particular
the read set) is unchanged, the result does not depend on the store's
current contents (no store read, no inline validation), and the status is
determined by the entry alone; and if a commit with this key still
buffered returns OK, then the key passed the validator during the
write-buffer pass of commit-time validation. -/
theorem C10_buffered_get_frame (t : Transaction) (cur cur2 : DBView)
    (k init : String) (e : BufferEntry) (wok : Bool)
    (hact : t.CheckActive = Status.ok)
    (hbuf : WriteBuffer.find t.write_buffer_ k = some e) :
    (t.Get cur k init).2.2 = t
    ∧ t.Get cur k init = t.Get cur2 k init
    ∧ (t.Get cur k init).1 =
        (if e.is_tombstone then Status.notFound "Key deleted in transaction"
          else Status.ok)
    ∧ ((t.Commit cur wok).1 = Status.ok →
        (ValidateSnapshotIsolation (t.snapshot_.getD []) cur k "").1
          = Status.ok) := by
  have hget : ∀ c : DBView, t.Get c k init =
      (if e.is_tombstone then Status.notFound "Key deleted in transaction"
        else Status.ok,
       if e.is_tombstone then init else e.value, t) := by
    intro c
    unfold Transaction.Get
    rw [hact]
    by_cases ht : e.is_tombstone = true <;> simp [Status.isOk, hbuf, ht]
  refine ⟨by rw [hget cur], by rw [hget cur, hget cur2],
    by rw [hget cur], ?_⟩
  intro hc
  have hne : t.write_buffer_ ≠ [] := by
    intro h0
    rw [h0] at hbuf
    simp [WriteBuffer.find] at hbuf
  unfold Transaction.Commit at hc
  rw [hact] at hc
  simp only [Status.isOk, Bool.not_true, if_false, hne, ite_false] at hc
  cases h1 : validateKeys (t.snapshot_.getD []) cur t.read_set_ with
  | some e1 =>
      rw [h1] at hc
      simp at hc
      have hcor := validateKeys_some_isCorruption _ _ _ _ h1
      rw [hc] at hcor
      simp [Status.isCorruption] at hcor
  | none =>
      rw [h1] at hc
      cases h2 : validateKeys (t.snapshot_.getD []) cur
          (t.write_buffer_.map Prod.fst) with
      | some e2 =>
          rw [h2] at hc
          simp at hc
          have hcor := validateKeys_some_isCorruption _ _ _ _ h2
          rw [hc] at hcor
          simp [Status.isCorruption] at hcor
      | none =>
          exact validateKeys_none_mem _ _ _ _ h2
            (WriteBuffer.find_some_mem _ _ _ hbuf)

/-- Witness for C10: a key only written inside the transaction; its `Get`
is buffer-served against two different store states, and a successful
commit implies the key passed the commit-time validator. -/
theorem C10_buffered_get_frame_witness :
    ((((Transaction.begin (some ⟨true, []⟩)).Put "k" "v").2).Get
        [("x", "1")] "k" "i").2.2
      = ((Transaction.begin (some ⟨true, []⟩)).Put "k" "v").2
    ∧ (((Transaction.begin (some ⟨true, []⟩)).Put "k" "v").2).Get
        [("x", "1")] "k" "i"
      = (((Transaction.begin (some ⟨true, []⟩)).Put "k" "v").2).Get [] "k" "i"
    ∧ ((((Transaction.begin (some ⟨true, []⟩)).Put "k" "v").2).Get
        [("x", "1")] "k" "i").1 =
        (if (BufferEntry.ofValue "v").is_tombstone then
          Status.notFound "Key deleted in transaction" else Status.ok) :=
  ⟨(C10_buffered_get_frame ((Transaction.begin (some ⟨true, []⟩)).Put "k"
      "v").2 [("x", "1")] [] "k" "i" (BufferEntry.ofValue "v") true
      (by decide) (by decide)).1,
    (C10_buffered_get_frame ((Transaction.begin (some ⟨true, []⟩)).Put "k"
      "v").2 [("x", "1")] [] "k" "i" (BufferEntry.ofValue "v") true
      (by decide) (by decide)).2.1,
    (C10_buffered_get_frame ((Transaction.begin (some ⟨true, []⟩)).Put "k"
      "v").2 [("x", "1")] [] "k" "i" (BufferEntry.ofValue "v") true
      (by decide) (by decide)).2.2.1⟩

end LevelDBTxn
